import Mathlib

/-!
The brog command-line shell (`main.go`): trace semantics

`main.go` is a thin shell around the `brogger` package.  Everything it does is
a call into `fmt`, `os`, `os/signal`, `strings` or `brogger`.  The embedding
below runs the shell over a `World` that fixes what each external call
returns, and records every external call, with the arguments it was given, as
an `Event`.  A run of a goroutine is the list of its events in program order
together with the way the goroutine ended (`Outcome`).

Formatting is not interpreted: a call `fmt.Fprintf(os.Stderr, f, args...)` is
recorded with its format string and its arguments.
-/

namespace BrogCmd

/-! ## Constants of `main.go` -/

/-- Go constant `Init`. -/
def Init : String := "init"
/-- Go constant `Create`. -/
def Create : String := "create"
/-- Go constant `Page`. -/
def Page : String := "page"
/-- Go constant `Server`. -/
def Server : String := "server"
/-- Go constant `Help`. -/
def Help : String := "help"
/-- Go constant `Version`. -/
def Version : String := "version"

/-- Go constant `usage` (a raw string literal, `main.go` lines 26-52). -/
def usage : String :=
"usage: brog {init | server [devel] | create [new post name] | page [new page name] | version}

'brog' is a tool to initialize brog structures, serve the content
of brog structures and create new posts in a brog structure.

The following are brog's valid commands with the arguments they take :

    brog init             Takes no argument, creates a new brog struc-
                          ture at the current working directory.

    brog server [devel]   Starts serving the brog structure at the
                          current location and watch for changes in the
                          template and post folders specified by the
                          config file.  If [devel], use the development
                          port number specified in the config file. By
                          default, brog runs in production mode.

    brog create [name]    Creates a blank post in file [name], in the
                          location specified by the config file.

    brog page [name]      Creates a blank page in file [name], in the
                          location specified by the config file.

    brog help             Shows this message.

    brog version          Prints the current version of brog.
"

/-! ## Values handed to and returned by the external packages -/

/-- A Go `error` value: `none` is `nil`, `some m` an error whose text is `m`. -/
abbrev GoError := Option String

/-- The fields of `brogger.Config` that `main.go` reads. -/
structure Config where
  PostPath : String
  PagePath : String
deriving DecidableEq, Repr

/-- A non-nil `*brogger.Brog`, as far as `main.go` looks into it. -/
structure Brog where
  Config : Config
deriving DecidableEq, Repr

/-- A variadic argument of a formatting call. -/
inductive Arg where
  | str (s : String)
  | err (e : GoError)
deriving DecidableEq, Repr

/-- One call that leaves `main.go`, with its arguments. -/
inductive Event where
  /-- `fmt.Println(s)`: writes `s` and a newline to stdout. -/
  | Println (s : String)
  /-- `fmt.Printf(format, args...)`: writes to stdout. -/
  | Printf (format : String) (args : List Arg)
  /-- `fmt.Fprintf(os.Stderr, format, args...)`. -/
  | FprintfStderr (format : String) (args : List Arg)
  /-- `brogger.CopyBrogBinaries()`. -/
  | CopyBrogBinaries
  /-- `brogger.PrepareBrog(isDevel)`. -/
  | PrepareBrog (isDevel : Bool)
  /-- `brog.Ok(format, args...)`. -/
  | Ok (format : String) (args : List Arg)
  /-- `brog.Warn(format, args...)`. -/
  | Warn (format : String) (args : List Arg)
  /-- `brog.Err(format, args...)`. -/
  | Err (format : String) (args : List Arg)
  /-- `signal.Notify(c, os.Interrupt)` followed by the `go func` of `sigCatch`. -/
  | SignalNotify
  /-- `brog.ListenAndServe()`. -/
  | ListenAndServe
  /-- `brogger.CopyBlankToFilename(conf, filename, dir)`. -/
  | CopyBlankToFilename (conf : Config) (filename : String) (dir : String)
  /-- `brog.Close()`. -/
  | Close
  /-- `os.Exit(code)`. -/
  | Exit (code : Nat)
deriving DecidableEq, Repr

/-- How a goroutine ended. -/
inductive Outcome where
  /-- The function returned to its caller (for `main`: the process ends). -/
  | returned
  /-- An unrecovered `panic(v)`. -/
  | panicked (v : String)
  /-- The goroutine called `os.Exit(code)`. -/
  | exited (code : Nat)
  /-- The goroutine is inside a call that does not return. -/
  | blocked
deriving DecidableEq, Repr

/-- Exit status of the process when the goroutine that ends it ends with the
given outcome: returning from `main` gives 0, an unrecovered panic gives 2
(Go runtime), `os.Exit(code)` gives `code`; a blocked goroutine does not end
the process. -/
def Outcome.exitStatus : Outcome → Option Nat
  | .returned => some 0
  | .panicked _ => some 2
  | .exited code => some code
  | .blocked => none

/-- The events of a goroutine in program order, and how it ended. -/
structure Run where
  trace : List Event
  outcome : Outcome
deriving DecidableEq, Repr

/-- What the external packages return.  `PrepareBrog` follows the Go
convention for `(*Brog, error)`: either a non-nil error (and a nil `*Brog`),
or a nil error and a usable `*Brog`. -/
structure World where
  /-- `brush.DarkGray`. -/
  DarkGray : String → String
  /-- `brush.Red`. -/
  Red : String → String
  /-- `brogger.Version`. -/
  Version : String
  /-- The `[]error` returned by `brogger.CopyBrogBinaries()`. -/
  CopyBrogBinaries : List String
  /-- The result of `brogger.PrepareBrog(isDevel)`. -/
  PrepareBrog : Bool → Except String Brog
  /-- What `brog.ListenAndServe()` does: `none` when the call never returns,
  `some err` when it returns `err`. -/
  ListenAndServe : Option GoError
  /-- The error returned by `brogger.CopyBlankToFilename(conf, filename, dir)`. -/
  CopyBlankToFilename : Config → String → String → GoError
  /-- The error returned by `brog.Close()`. -/
  Close : GoError

end BrogCmd

/-- Go `strings.Join(elems, sep)`. -/
def strings.Join (elems : List String) (sep : String) : String :=
  sep.intercalate elems

namespace BrogCmd

/-! ## The functions of `main.go` -/

/-- Go variable `errPfx`: `fmt.Sprintf("%s%s%s ", DarkGray("["), Red("ERROR"), DarkGray("]"))`. -/
def errPfx (w : World) : String :=
  w.DarkGray "[" ++ w.Red "ERROR" ++ w.DarkGray "]" ++ " "

/-- Go `printPreBrogError`: `errMsg := fmt.Sprintf("%s%s", errPfx, format)`, then
`fmt.Fprintf(os.Stderr, errMsg, args...)`. -/
def printPreBrogError (w : World) (format : String) (args : List Arg) : List Event :=
  let errMsg := errPfx w ++ format
  [Event.FprintfStderr errMsg args]

/-- Go `printTryInitMessage`. -/
def printTryInitMessage : List Event :=
  [Event.Printf "Try initializing a brog here, run : brog %s.\n" [Arg.str Init]]

/-- Go `closeOrPanic`: `if err := brog.Close(); err != nil { panic(err) }`. -/
def closeOrPanic (w : World) : Run :=
  match w.Close with
  | some err => ⟨[Event.Close], Outcome.panicked err⟩
  | none => ⟨[Event.Close], Outcome.returned⟩

/-- A function body that emitted `evs` and returns normally, with
`defer closeOrPanic(brog)` pending: the deferred call runs at the return. -/
def returnWithDeferredClose (w : World) (evs : List Event) : Run :=
  ⟨evs ++ (closeOrPanic w).trace, (closeOrPanic w).outcome⟩

/-- Go `sigCatch`, on the calling goroutine: makes the channel, registers it
for `os.Interrupt` and starts the handler goroutine. -/
def sigCatch : List Event :=
  [Event.SignalNotify]

/-- The goroutine started by `sigCatch`, from the moment `<-c` receives the
interrupt: `brog.Ok(...)`, `closeOrPanic(brog)`, `os.Exit(1)`. -/
def sigCatchHandler (w : World) : Run :=
  let r := closeOrPanic w
  match r.outcome with
  | Outcome.returned =>
    ⟨[Event.Ok "Brog invasion INTERRUPTed" []] ++ r.trace ++ [Event.Exit 1], Outcome.exited 1⟩
  | o => ⟨[Event.Ok "Brog invasion INTERRUPTed" []] ++ r.trace, o⟩

/-- Go `doInit`.  After `PrepareBrog` the code tests `len(errs) != 0` again,
which is false there, so the `err` of `PrepareBrog` is not looked at; with a
nil `*Brog` the following `brog.Ok` dereferences nil. -/
def doInit (w : World) : Run :=
  let e0 := [Event.Println (w.DarkGray "A dark geometric shape is approaching..."),
             Event.CopyBrogBinaries]
  let errs := w.CopyBrogBinaries
  if errs.length ≠ 0 then
    ⟨e0 ++ printPreBrogError w "Couldn't inject brog nanoprobes.\n" []
        ++ (errs.map fun err => printPreBrogError w "Message : %v.\n" [Arg.err (some err)]).flatten,
     Outcome.returned⟩
  else
    match w.PrepareBrog false with
    | Except.error _ =>
      ⟨e0 ++ [Event.PrepareBrog false], Outcome.panicked "nil pointer dereference"⟩
    | Except.ok _ =>
      returnWithDeferredClose w
        (e0 ++ [Event.PrepareBrog false,
                Event.Ok "Initiliazing a brog. Resistance is futile." [],
                Event.Ok "Brog nanoprobes implanted." []])

/-- Go `doServer`. -/
def doServer (w : World) (isDevel : Bool) : Run :=
  match w.PrepareBrog isDevel with
  | Except.error err =>
    ⟨[Event.PrepareBrog isDevel]
        ++ printPreBrogError w "Couldn't start brog server.\n" []
        ++ printPreBrogError w "Message : %v.\n" [Arg.err (some err)]
        ++ printTryInitMessage,
     Outcome.returned⟩
  | Except.ok _ =>
    let e0 := [Event.PrepareBrog isDevel]
        ++ sigCatch
        ++ (if isDevel then [Event.Warn "Will go live in development." []] else [])
        ++ [Event.ListenAndServe]
    match w.ListenAndServe with
    | none => ⟨e0, Outcome.blocked⟩
    | some err => returnWithDeferredClose w (e0 ++ [Event.Err "Whoops! %v." [Arg.err err]])

/-- Go `doCreate`. -/
def doCreate (w : World) (newPostFilename : String) (creationType : String) : Run :=
  match w.PrepareBrog false with
  | Except.error err =>
    ⟨[Event.PrepareBrog false]
        ++ printPreBrogError w "Couldn't create new post.\n" []
        ++ printPreBrogError w "Message : %v.\n" [Arg.err (some err)]
        ++ printTryInitMessage,
     Outcome.returned⟩
  | Except.ok brog =>
    let dir := if creationType = "page" then brog.Config.PagePath else brog.Config.PostPath
    let call := Event.CopyBlankToFilename brog.Config newPostFilename dir
    match w.CopyBlankToFilename brog.Config newPostFilename dir with
    | some err =>
      returnWithDeferredClose w
        [Event.PrepareBrog false, call,
         Event.Err "Brog %s creation failed, %v." [Arg.str creationType, Arg.err (some err)],
         Event.Err "Why do you resist?" []]
    | none =>
      returnWithDeferredClose w
        [Event.PrepareBrog false, call,
         Event.Ok "'%s' will become one with the Brog." [Arg.str newPostFilename]]

/-- Prefixes the events `evs` to a run. -/
def Run.after (evs : List Event) (r : Run) : Run :=
  ⟨evs ++ r.trace, r.outcome⟩

/-- The `for i, arg := range commands` loop of Go `main` and the
`fmt.Println(usage)` after it.  `rest` holds the elements still to be visited,
`i` is the index of its head in `commands`. -/
def rangeCommands (w : World) (commands : List String) : Nat → List String → Run
  | _, [] => ⟨[Event.Println usage], Outcome.returned⟩
  | i, arg :: rest =>
    if arg = Init then doInit w
    else if arg = Server then
      if h : commands.length > i + 1 then
        doServer w (decide (commands.get ⟨i + 1, h⟩ = "devel"))
      else
        doServer w false
    else if arg = Create then
      let followingWords := strings.Join (commands.drop (i + 1)) "_"
      doCreate w followingWords "post"
    else if arg = Page then
      let followingWords := strings.Join (commands.drop (i + 1)) "_"
      doCreate w followingWords "page"
    else if arg = Version then
      ⟨[Event.Println w.Version], Outcome.returned⟩
    else if arg = Help then
      rangeCommands w commands (i + 1) rest
    else
      Run.after (printPreBrogError w "Unknown command: %s.\n" [Arg.str arg])
        (rangeCommands w commands (i + 1) rest)

/-- Go `main`, given `os.Args`.  `os.Args[1:]` panics on an empty `os.Args`. -/
def main (w : World) (osArgs : List String) : Run :=
  match osArgs with
  | [] => ⟨[], Outcome.panicked "slice bounds out of range [1:0]"⟩
  | _ :: commands => rangeCommands w commands 0 commands

end BrogCmd

namespace BrogCmd

/-! ## Vocabulary of the statements -/

/-- The words on which the loop of `main` calls a command and returns. -/
def dispatching : List String := [Init, Server, Create, Page, Version]

/-- The word `cmd` stands at index `i` of `commands`, it is one of the
dispatching words, and no word before index `i` is. -/
def FirstDispatched (commands : List String) (i : Nat) (cmd : String) : Prop :=
  commands[i]? = some cmd ∧ cmd ∈ dispatching ∧ ∀ a ∈ commands.take i, a ∉ dispatching

instance (commands : List String) (i : Nat) (cmd : String) :
    Decidable (FirstDispatched commands i cmd) :=
  inferInstanceAs (Decidable (_ ∧ _ ∧ _))

/-- Recognises a `brogger.PrepareBrog` call. -/
def Event.isPrepareBrog : Event → Bool
  | Event.PrepareBrog _ => true
  | _ => false

/-- Recognises a `brogger.CopyBlankToFilename` call. -/
def Event.isCopyBlankToFilename : Event → Bool
  | Event.CopyBlankToFilename _ _ _ => true
  | _ => false

/-- The events of the loop of `main` on words that neither dispatch nor end
the loop: nothing for `help`, an "Unknown command" error for any other word. -/
def skipped (w : World) : List String → List Event
  | [] => []
  | a :: pre =>
    (if a = Help then [] else printPreBrogError w "Unknown command: %s.\n" [Arg.str a])
      ++ skipped w pre

/-- A world in which no brog structure is present: `PrepareBrog` fails. -/
def noBrogWorld : World where
  DarkGray := id
  Red := id
  Version := "0.1"
  CopyBrogBinaries := []
  PrepareBrog := fun _ => Except.error "no config"
  ListenAndServe := none
  CopyBlankToFilename := fun _ _ _ => none
  Close := none

/-- A world with a brog structure in place and every call succeeding;
`ListenAndServe` returns with an error. -/
def okWorld : World where
  DarkGray := id
  Red := id
  Version := "0.1"
  CopyBrogBinaries := []
  PrepareBrog := fun _ => Except.ok ⟨⟨"posts", "pages"⟩⟩
  ListenAndServe := some (some "listener closed")
  CopyBlankToFilename := fun _ _ _ => none
  Close := none

end BrogCmd

/-!
The content-serving engine (package `brogger`), modelled from the spec

The `brogger` package is not part of the sources at hand; `main.go` only calls
into it.  The definitions of this section follow sections 3, 4.2, 4.3, 4.5 and
4.6 of the specification.  What the specification leaves open (the front-matter
syntax, the slug derivation, the template substitution) is a parameter.
-/

namespace Brogger

/-- Modelled from the spec: the kind of a ContentItem, post or page (section 3);
the `brogger` sources that define content items are missing. -/
inductive Kind where
  | post
  | page
deriving DecidableEq, Repr

/-- Modelled from the spec: the Configuration record of section 3, missing with
the `brogger` sources. -/
structure Configuration where
  postPath : String
  pagePath : String
  templatePath : String
  productionPort : Nat
  developmentPort : Nat
  siteTitle : String
  siteMetadata : List (String × String)
deriving DecidableEq, Repr

/-- Modelled from the spec: the filesystem the Content Store scans (section 6),
as the eligible files of each directory, each a path and its text; the scanning
code of `brogger` is missing. -/
abbrev FileSystem := String → List (String × String)

/-- Modelled from the spec: one scanned content file, "a single text file with
front-matter metadata followed by markup body" (section 6); missing with the
`brogger` sources. -/
structure SourceFile where
  path : String
  kind : Kind
  text : String
deriving DecidableEq, Repr

/-- Modelled from the spec: parsed front-matter, "key-value metadata"
(section 3); the `brogger` parser is missing. -/
abbrev FrontMatter := List (String × String)

/-- Modelled from the spec: a ContentItem (section 3), identified by its source
file path; missing with the `brogger` sources. -/
structure ContentItem where
  path : String
  kind : Kind
  slug : String
  frontMatter : FrontMatter
  body : String
deriving DecidableEq, Repr

/-- Modelled from the spec: the errors that abort a rebuild (sections 3, 4.2,
4.3 and 7); the `brogger` error types are missing. -/
inductive BuildError where
  /-- `ContentParseError{path, reason}`: malformed front-matter. -/
  | ContentParseError (path : String) (reason : String)
  /-- Two items of one kind with the same slug. -/
  | SlugCollision (slug : String)
  /-- `TemplateError{name, reason}`. -/
  | TemplateError (name : String) (reason : String)
  /-- `RenderError{item, reason}`. -/
  | RenderError (item : String) (reason : String)
deriving DecidableEq, Repr

/-- Modelled from the spec: what the spec leaves open about reading one file,
taken as given: the front-matter parser, which either rejects the text with a
reason (malformed front-matter) or splits it into metadata and body, and the
derivation of the slug "from a content item's filename or metadata". -/
structure Reader where
  parse : String → Except String (FrontMatter × String)
  slug : String → FrontMatter → String

/-- Modelled from the spec: a Site Snapshot (section 3): the rendered posts in
order, the rendered pages by slug, the rendered index; missing with the
`brogger` sources. -/
structure SiteSnapshot where
  posts : List (String × String)
  pages : List (String × String)
  index : String
deriving DecidableEq, Repr

/-- Modelled from the spec: the Renderer of section 4.3, a pure function from
the content set (the template set fixed) to a snapshot or an error; the
`brogger` renderer is missing. -/
abbrev Renderer := List ContentItem → Except BuildError SiteSnapshot

/-- Modelled from the spec: the scan step of `build` (section 4.2), "scans
postPath and pagePath"; the `brogger` code is missing. -/
def scan (fs : FileSystem) (config : Configuration) : List SourceFile :=
  (fs config.postPath).map (fun f => ⟨f.1, Kind.post, f.2⟩)
    ++ (fs config.pagePath).map (fun f => ⟨f.1, Kind.page, f.2⟩)

/-- Modelled from the spec: a file has malformed front-matter when the
front-matter parser rejects its text; the `brogger` parser is missing. -/
def Malformed (rd : Reader) (f : SourceFile) : Prop :=
  ∃ reason, rd.parse f.text = Except.error reason

/-- Modelled from the spec: reading one file (section 4.2): "parses
front-matter and body", failing with `ContentParseError{path, reason}` on
malformed front-matter; the `brogger` code is missing. -/
def parseItem (rd : Reader) (f : SourceFile) : Except BuildError ContentItem :=
  match rd.parse f.text with
  | Except.error reason => Except.error (BuildError.ContentParseError f.path reason)
  | Except.ok (fm, body) => Except.ok ⟨f.path, f.kind, rd.slug f.path fm, fm, body⟩

/-- Modelled from the spec: reading every scanned file in scan order, fail-fast
(section 4.2: "a single bad file aborts the entire rebuild ... rather than
silently dropping one item"); the `brogger` code is missing. -/
def parseAll (rd : Reader) : List SourceFile → Except BuildError (List ContentItem)
  | [] => Except.ok []
  | f :: fs =>
    match parseItem rd f with
    | Except.error e => Except.error e
    | Except.ok item =>
      match parseAll rd fs with
      | Except.error e => Except.error e
      | Except.ok items => Except.ok (item :: items)

/-- Modelled from the spec: the first slug that occurs twice within one kind
(section 3: "every ContentItem's slug is unique within its kind"); the
`brogger` code is missing. -/
def firstCollision : List ContentItem → Option String
  | [] => none
  | item :: items =>
    if items.any (fun other => other.kind = item.kind ∧ other.slug = item.slug) then
      some item.slug
    else
      firstCollision items

/-- Modelled from the spec: `build(config) -> ContentSet | error` of section
4.2, with the slug invariant of section 3 ("slug collisions must fail the
rebuild rather than silently overwrite"); the `brogger` code is missing. -/
def build (rd : Reader) (fs : FileSystem) (config : Configuration) :
    Except BuildError (List ContentItem) :=
  match parseAll rd (scan fs config) with
  | Except.error e => Except.error e
  | Except.ok items =>
    match firstCollision items with
    | some slug => Except.error (BuildError.SlugCollision slug)
    | none => Except.ok items

/-- Modelled from the spec: the Serving Engine together with the log of the
Lifecycle Controller: the one live snapshot (section 3) and the rebuild
failures reported so far (section 4.6); missing with the `brogger` sources. -/
structure Engine where
  live : SiteSnapshot
  reported : List BuildError
deriving DecidableEq, Repr

/-- Modelled from the spec: `swap(newSnapshot)` of section 4.5, "replaces the
currently served snapshot"; the `brogger` code is missing. -/
def swap (eng : Engine) (newSnapshot : SiteSnapshot) : Engine :=
  { eng with live := newSnapshot }

/-- Modelled from the spec: one rebuild of the Running state (section 4.6):
"trigger rebuild+render+swap", and "a rebuild failure ... is reported (logged)
and leaves the prior snapshot live"; the `brogger` code is missing. -/
def rebuild (rd : Reader) (render : Renderer) (fs : FileSystem) (config : Configuration)
    (eng : Engine) : Engine :=
  match build rd fs config with
  | Except.error e => { eng with reported := eng.reported ++ [e] }
  | Except.ok items =>
    match render items with
    | Except.error e => { eng with reported := eng.reported ++ [e] }
    | Except.ok snapshot => swap eng snapshot

/-- Modelled from the spec: the routing of section 4.5 on the current
snapshot: `/` gives the rendered index, `/{slug}` the matching post or page,
anything else 404; the `brogger` handlers are missing. -/
def serve (eng : Engine) (path : String) : Nat × String :=
  if path = "/" then (200, eng.live.index)
  else
    match eng.live.posts.lookup (path.drop 1) with
    | some doc => (200, doc)
    | none =>
      match eng.live.pages.lookup (path.drop 1) with
      | some doc => (200, doc)
      | none => (404, "")

/-- A reader for examples: a text is well-formed when it starts with
`title: `; the title runs to the end of the line, the body is what follows;
the slug is the file path. -/
def sampleReader : Reader where
  parse := fun text =>
    match text.data with
    | 't' :: 'i' :: 't' :: 'l' :: 'e' :: ':' :: ' ' :: rest =>
      Except.ok ([("title", String.mk (rest.takeWhile (fun c => c ≠ '\n')))],
        String.mk ((rest.dropWhile (fun c => c ≠ '\n')).drop 1))
    | _ => Except.error "front-matter does not start with a title"
  slug := fun path _ => path

/-- A renderer for examples: every item is rendered to its body. -/
def sampleRenderer : Renderer := fun items =>
  Except.ok
    { posts := (items.filter (fun it => it.kind = Kind.post)).map (fun it => (it.slug, it.body))
      pages := (items.filter (fun it => it.kind = Kind.page)).map (fun it => (it.slug, it.body))
      index := ", ".intercalate (items.map (fun it => it.slug)) }

/-- A configuration for examples. -/
def sampleConfiguration : Configuration :=
  { postPath := "posts", pagePath := "pages", templatePath := "templates",
    productionPort := 80, developmentPort := 3000, siteTitle := "brog", siteMetadata := [] }

/-- A filesystem for examples: one well-formed post and one page without
front-matter. -/
def brokenFileSystem : FileSystem := fun dir =>
  if dir = "posts" then [("hello", "title: Hello\nHi there")]
  else if dir = "pages" then [("about", "no front-matter here")]
  else []

/-- An engine for examples, serving one post. -/
def sampleEngine : Engine :=
  { live := { posts := [("hello", "Hi there")], pages := [], index := "hello" }, reported := [] }

end Brogger

namespace BrogCmd

/-! ## The loop of `main` -/

theorem skipped_no_isPrepareBrog (w : World) (pre : List String) :
    (skipped w pre).filter Event.isPrepareBrog = [] := by
  induction pre with
  | nil => rfl
  | cons a pre ih =>
    by_cases h : a = Help <;>
      simp [skipped, printPreBrogError, Event.isPrepareBrog, h, ih]

theorem skipped_no_isCopyBlankToFilename (w : World) (pre : List String) :
    (skipped w pre).filter Event.isCopyBlankToFilename = [] := by
  induction pre with
  | nil => rfl
  | cons a pre ih =>
    by_cases h : a = Help <;>
      simp [skipped, printPreBrogError, Event.isCopyBlankToFilename, h, ih]

theorem skipped_no_ListenAndServe (w : World) (pre : List String) :
    Event.ListenAndServe ∉ skipped w pre := by
  induction pre with
  | nil => simp [skipped]
  | cons a pre ih =>
    by_cases h : a = Help <;> simp [skipped, printPreBrogError, h, ih]

theorem skipped_no_Exit (w : World) (pre : List String) (code : Nat) :
    Event.Exit code ∉ skipped w pre := by
  induction pre with
  | nil => simp [skipped]
  | cons a pre ih =>
    by_cases h : a = Help <;> simp [skipped, printPreBrogError, h, ih]

theorem rangeCommands_skip (w : World) (commands pre rest : List String) (k : Nat)
    (hpre : ∀ a ∈ pre, a ∉ dispatching) :
    rangeCommands w commands k (pre ++ rest)
      = Run.after (skipped w pre) (rangeCommands w commands (k + pre.length) rest) := by
  induction pre generalizing k with
  | nil => simp [skipped, Run.after]
  | cons a pre ih =>
    have ha : a ∉ dispatching := hpre a (List.mem_cons_self _ _)
    have hrest : ∀ b ∈ pre, b ∉ dispatching := fun b hb => hpre b (List.mem_cons_of_mem _ hb)
    simp only [dispatching, List.mem_cons, List.mem_singleton, List.not_mem_nil, or_false,
      not_or] at ha
    obtain ⟨h1, h2, h3, h4, h5⟩ := ha
    have hk : k + (a :: pre).length = k + 1 + pre.length := by
      rw [List.length_cons]; omega
    rw [List.cons_append, rangeCommands, if_neg h1, if_neg h2, if_neg h3, if_neg h4, if_neg h5,
      ih (k + 1) hrest, hk]
    by_cases hh : a = Help
    · rw [if_pos hh, skipped, if_pos hh, List.nil_append]
    · rw [if_neg hh, skipped, if_neg hh]
      simp [Run.after]

theorem main_of_firstDispatched (w : World) (prog : String) (commands : List String) (i : Nat)
    (cmd : String) (h : FirstDispatched commands i cmd) :
    main w (prog :: commands)
      = Run.after (skipped w (commands.take i))
          (rangeCommands w commands i (cmd :: commands.drop (i + 1))) := by
  obtain ⟨hi, -, hpre⟩ := h
  have hlt : i < commands.length := by
    by_contra hc
    rw [List.getElem?_eq_none (by omega)] at hi
    exact absurd hi (by simp)
  have hdrop : commands.drop i = cmd :: commands.drop (i + 1) := by
    rw [List.drop_eq_getElem_cons hlt]
    rw [List.getElem?_eq_getElem hlt] at hi
    simp at hi
    rw [hi]
  have hsplit : commands = commands.take i ++ (cmd :: commands.drop (i + 1)) := by
    rw [← hdrop, List.take_append_drop]
  have := rangeCommands_skip w commands (commands.take i) (cmd :: commands.drop (i + 1)) 0 hpre
  rw [← hsplit] at this
  simp only [main]
  rw [this]
  simp [List.length_take, Nat.min_eq_left (Nat.le_of_lt hlt)]

theorem rangeCommands_server (w : World) (commands post : List String) (i : Nat) :
    rangeCommands w commands i (Server :: post)
      = doServer w (decide (commands[i + 1]? = some "devel")) := by
  rw [rangeCommands, if_neg (by decide), if_pos rfl]
  by_cases h : commands.length > i + 1
  · rw [dif_pos h]
    congr 1
    simp [List.getElem?_eq_getElem h]
  · rw [dif_neg h, List.getElem?_eq_none (by omega)]
    simp

theorem rangeCommands_create (w : World) (commands post : List String) (i : Nat) :
    rangeCommands w commands i (Create :: post)
      = doCreate w (strings.Join (commands.drop (i + 1)) "_") "post" := by
  rw [rangeCommands, if_neg (by decide), if_neg (by decide), if_pos rfl]

theorem rangeCommands_page (w : World) (commands post : List String) (i : Nat) :
    rangeCommands w commands i (Page :: post)
      = doCreate w (strings.Join (commands.drop (i + 1)) "_") "page" := by
  rw [rangeCommands, if_neg (by decide), if_neg (by decide), if_neg (by decide), if_pos rfl]

/-! ## `doServer` -/

theorem doServer_filter_isPrepareBrog (w : World) (isDevel : Bool) :
    (doServer w isDevel).trace.filter Event.isPrepareBrog = [Event.PrepareBrog isDevel] := by
  unfold doServer
  cases hp : w.PrepareBrog isDevel with
  | error err => simp [printPreBrogError, printTryInitMessage, Event.isPrepareBrog]
  | ok brog =>
    cases hl : w.ListenAndServe with
    | none => cases isDevel <;> simp [sigCatch, Event.isPrepareBrog]
    | some e =>
      cases hc : w.Close <;> cases isDevel <;>
        simp [returnWithDeferredClose, closeOrPanic, sigCatch, Event.isPrepareBrog, hc]

theorem doServer_error (w : World) (isDevel : Bool) (err : String)
    (h : w.PrepareBrog isDevel = Except.error err) :
    doServer w isDevel
      = ⟨[Event.PrepareBrog isDevel,
          Event.FprintfStderr (errPfx w ++ "Couldn't start brog server.\n") [],
          Event.FprintfStderr (errPfx w ++ "Message : %v.\n") [Arg.err (some err)],
          Event.Printf "Try initializing a brog here, run : brog %s.\n" [Arg.str Init]],
         Outcome.returned⟩ := by
  unfold doServer
  rw [h]
  rfl

/-! ## `doCreate` -/

theorem doCreate_filter_isCopyBlankToFilename (w : World) (name creationType : String) :
    (doCreate w name creationType).trace.filter Event.isCopyBlankToFilename
      = match w.PrepareBrog false with
        | Except.ok brog =>
          [Event.CopyBlankToFilename brog.Config name
            (if creationType = "page" then brog.Config.PagePath else brog.Config.PostPath)]
        | Except.error _ => [] := by
  unfold doCreate
  cases hp : w.PrepareBrog false with
  | error err => simp [printPreBrogError, printTryInitMessage, Event.isCopyBlankToFilename]
  | ok brog =>
    simp only []
    cases hcopy : w.CopyBlankToFilename brog.Config name
        (if creationType = "page" then brog.Config.PagePath else brog.Config.PostPath) <;>
      cases hc : w.Close <;>
      simp [returnWithDeferredClose, closeOrPanic, Event.isCopyBlankToFilename, hc]

end BrogCmd

namespace BrogCmd

/-! ## Claims about `main.go` -/

/-- C1 (as stated, refuted): `brog server` where no brog structure is present:
`PrepareBrog` returns an error, `doServer` and then `main` return normally, and
the exit status of the process is 0, not a non-zero status. -/
theorem server_startup_error_exits_zero :
    FirstDispatched ["server"] 0 Server
      ∧ noBrogWorld.PrepareBrog false = Except.error "no config"
      ∧ (main noBrogWorld ["brog", "server"]).outcome = Outcome.returned
      ∧ (main noBrogWorld ["brog", "server"]).outcome.exitStatus = some 0 := by
  refine ⟨by decide, rfl, rfl, rfl⟩

/-- C1 (amended): when the first dispatched command is `server` and
`brogger.PrepareBrog` returns a non-nil error, the error is written to stderr
(`fmt.Fprintf(os.Stderr, errPfx + "Message : %v.\n", err)`), `ListenAndServe`
is never called, no `os.Exit` is called, and `main` returns normally, which ends
the process with exit status 0. -/
theorem server_startup_error_reported (w : World) (prog : String) (commands : List String)
    (i : Nat) (err : String)
    (hcmd : FirstDispatched commands i Server)
    (herr : w.PrepareBrog (decide (commands[i + 1]? = some "devel")) = Except.error err) :
    Event.FprintfStderr (errPfx w ++ "Message : %v.\n") [Arg.err (some err)]
        ∈ (main w (prog :: commands)).trace
      ∧ Event.ListenAndServe ∉ (main w (prog :: commands)).trace
      ∧ (∀ code, Event.Exit code ∉ (main w (prog :: commands)).trace)
      ∧ (main w (prog :: commands)).outcome = Outcome.returned
      ∧ (main w (prog :: commands)).outcome.exitStatus = some 0 := by
  rw [main_of_firstDispatched w prog commands i Server hcmd, rangeCommands_server,
    doServer_error w _ err herr]
  refine ⟨?_, ?_, ?_, rfl, rfl⟩
  · simp [Run.after]
  · simp [Run.after, skipped_no_ListenAndServe]
  · intro code
    simp [Run.after, skipped_no_Exit]

/-- C1 (amended), at `brog server devel` with an unknown word in front. -/
theorem server_startup_error_reported_witness :
    FirstDispatched ["now", "server", "devel"] 1 Server
      ∧ noBrogWorld.PrepareBrog true = Except.error "no config"
      ∧ Event.FprintfStderr (errPfx noBrogWorld ++ "Message : %v.\n") [Arg.err (some "no config")]
          ∈ (main noBrogWorld ["brog", "now", "server", "devel"]).trace
      ∧ Event.ListenAndServe ∉ (main noBrogWorld ["brog", "now", "server", "devel"]).trace
      ∧ (∀ code, Event.Exit code ∉ (main noBrogWorld ["brog", "now", "server", "devel"]).trace)
      ∧ (main noBrogWorld ["brog", "now", "server", "devel"]).outcome = Outcome.returned
      ∧ (main noBrogWorld ["brog", "now", "server", "devel"]).outcome.exitStatus = some 0 :=
  ⟨by decide, rfl,
    server_startup_error_reported noBrogWorld "brog" ["now", "server", "devel"] 1 "no config"
      (by decide) rfl⟩

/-- C2: when the first dispatched command is `server` at index `i`,
`brogger.PrepareBrog` is called exactly once; it is called with `true`
(development mode) if and only if there is an argument at index `i + 1` and it
is exactly "devel", and with `false` (production mode) in every other case. -/
theorem server_devel_iff_next_word (w : World) (prog : String) (commands : List String)
    (i : Nat) (hcmd : FirstDispatched commands i Server) :
    (main w (prog :: commands)).trace.filter Event.isPrepareBrog
        = [Event.PrepareBrog (decide (commands[i + 1]? = some "devel"))]
      ∧ (Event.PrepareBrog true ∈ (main w (prog :: commands)).trace
          ↔ commands[i + 1]? = some "devel")
      ∧ (Event.PrepareBrog false ∈ (main w (prog :: commands)).trace
          ↔ commands[i + 1]? ≠ some "devel") := by
  have hf : (main w (prog :: commands)).trace.filter Event.isPrepareBrog
      = [Event.PrepareBrog (decide (commands[i + 1]? = some "devel"))] := by
    rw [main_of_firstDispatched w prog commands i Server hcmd, rangeCommands_server]
    simp only [Run.after, List.filter_append, skipped_no_isPrepareBrog, List.nil_append,
      doServer_filter_isPrepareBrog]
  have hmem : ∀ b, Event.PrepareBrog b ∈ (main w (prog :: commands)).trace
      ↔ b = decide (commands[i + 1]? = some "devel") := by
    intro b
    have : Event.PrepareBrog b ∈ (main w (prog :: commands)).trace.filter Event.isPrepareBrog
        ↔ Event.PrepareBrog b ∈ (main w (prog :: commands)).trace := by
      simp [List.mem_filter, Event.isPrepareBrog]
    rw [← this, hf]
    simp
  refine ⟨hf, ?_, ?_⟩
  · rw [hmem true]; simp [eq_comm]
  · rw [hmem false]; simp [eq_comm]

/-- C2, at `brog server devel`, `brog server` and `brog server production`. -/
theorem server_devel_iff_next_word_witness :
    (main okWorld ["brog", "server", "devel"]).trace.filter Event.isPrepareBrog
        = [Event.PrepareBrog true]
      ∧ (main okWorld ["brog", "server"]).trace.filter Event.isPrepareBrog
        = [Event.PrepareBrog false]
      ∧ (main okWorld ["brog", "server", "production"]).trace.filter Event.isPrepareBrog
        = [Event.PrepareBrog false] :=
  ⟨(server_devel_iff_next_word okWorld "brog" ["server", "devel"] 0 (by decide)).1,
   (server_devel_iff_next_word okWorld "brog" ["server"] 0 (by decide)).1,
   (server_devel_iff_next_word okWorld "brog" ["server", "production"] 0 (by decide)).1⟩

/-- C3: when the first dispatched command is `create` at index `i`, the only
call of `brogger.CopyBlankToFilename` (made once `PrepareBrog` has succeeded,
never otherwise) gets as file name the arguments after index `i` joined with
"_" and as directory `Config.PostPath`; when it is `page`, the same with
`Config.PagePath`. -/
theorem create_page_copy_target (w : World) (prog : String) (commands : List String)
    (i : Nat) :
    (FirstDispatched commands i Create →
      (main w (prog :: commands)).trace.filter Event.isCopyBlankToFilename
        = match w.PrepareBrog false with
          | Except.ok brog =>
            [Event.CopyBlankToFilename brog.Config
              (strings.Join (commands.drop (i + 1)) "_") brog.Config.PostPath]
          | Except.error _ => [])
    ∧ (FirstDispatched commands i Page →
      (main w (prog :: commands)).trace.filter Event.isCopyBlankToFilename
        = match w.PrepareBrog false with
          | Except.ok brog =>
            [Event.CopyBlankToFilename brog.Config
              (strings.Join (commands.drop (i + 1)) "_") brog.Config.PagePath]
          | Except.error _ => []) := by
  constructor
  · intro hcmd
    rw [main_of_firstDispatched w prog commands i Create hcmd, rangeCommands_create]
    simp only [Run.after, List.filter_append, skipped_no_isCopyBlankToFilename, List.nil_append,
      doCreate_filter_isCopyBlankToFilename]
    cases w.PrepareBrog false with
    | error e => rfl
    | ok brog => simp
  · intro hcmd
    rw [main_of_firstDispatched w prog commands i Page hcmd, rangeCommands_page]
    simp only [Run.after, List.filter_append, skipped_no_isCopyBlankToFilename, List.nil_append,
      doCreate_filter_isCopyBlankToFilename]
    cases w.PrepareBrog false with
    | error e => rfl
    | ok brog => simp

/-- C3, at `brog create my first post` and `brog page about me`, with
`PostPath = "posts"` and `PagePath = "pages"`. -/
theorem create_page_copy_target_witness :
    (main okWorld ["brog", "create", "my", "first", "post"]).trace.filter
        Event.isCopyBlankToFilename
        = [Event.CopyBlankToFilename ⟨"posts", "pages"⟩ "my_first_post" "posts"]
      ∧ (main okWorld ["brog", "page", "about", "me"]).trace.filter
        Event.isCopyBlankToFilename
        = [Event.CopyBlankToFilename ⟨"posts", "pages"⟩ "about_me" "pages"] :=
  ⟨(create_page_copy_target okWorld "brog" ["create", "my", "first", "post"] 0).1 (by decide),
   (create_page_copy_target okWorld "brog" ["page", "about", "me"] 0).2 (by decide)⟩

/-- C4: the goroutine that `sigCatch` starts, run from the receipt of the
interrupt: it calls `brog.Close` exactly once; every `os.Exit` it makes comes
after that `Close` call; and when `Close` returns nil it ends in `os.Exit(1)`,
exit status 1.  When `Close` returns an error it panics and never reaches
`os.Exit`.  While the main goroutine stays inside `ListenAndServe`, `doServer`
has installed the handler and has not called `Close` itself, so the handler's
call is the only one of the process. -/
theorem interrupt_closes_before_exit (w : World) :
    (sigCatchHandler w).trace.count Event.Close = 1
      ∧ (∀ pre post code, (sigCatchHandler w).trace = pre ++ Event.Exit code :: post →
          Event.Close ∈ pre)
      ∧ (w.Close = none →
          (sigCatchHandler w).trace.getLast? = some (Event.Exit 1)
            ∧ (sigCatchHandler w).outcome = Outcome.exited 1
            ∧ (sigCatchHandler w).outcome.exitStatus = some 1)
      ∧ (∀ err, w.Close = some err →
          (∀ code, Event.Exit code ∉ (sigCatchHandler w).trace)
            ∧ (sigCatchHandler w).outcome = Outcome.panicked err)
      ∧ (∀ isDevel brog, w.PrepareBrog isDevel = Except.ok brog → w.ListenAndServe = none →
          Event.SignalNotify ∈ (doServer w isDevel).trace
            ∧ ((doServer w isDevel).trace ++ (sigCatchHandler w).trace).count Event.Close
                = 1) := by
  have hserver : ∀ isDevel brog, w.PrepareBrog isDevel = Except.ok brog →
      w.ListenAndServe = none →
      Event.SignalNotify ∈ (doServer w isDevel).trace
        ∧ (doServer w isDevel).trace.count Event.Close = 0 := by
    intro isDevel brog hp hl
    cases isDevel <;> simp [doServer, hp, hl, sigCatch]
  cases hc : w.Close with
  | none =>
    have ht : sigCatchHandler w
        = ⟨[Event.Ok "Brog invasion INTERRUPTed" [], Event.Close, Event.Exit 1],
            Outcome.exited 1⟩ := by
      simp [sigCatchHandler, closeOrPanic, hc]
    rw [ht]
    refine ⟨by decide, ?_, fun _ => ⟨rfl, rfl, rfl⟩, fun err h => by simp at h, ?_⟩
    rotate_left
    · intro isDevel brog hp hl
      obtain ⟨h1, h2⟩ := hserver isDevel brog hp hl
      refine ⟨h1, ?_⟩
      rw [List.count_append, h2]
      decide
    intro pre post code h
    match pre, h with
    | [], h => simp at h
    | [_], h => simp at h
    | _ :: b :: pre, h =>
      simp only [List.cons_append, List.cons.injEq] at h
      rw [← h.2.1]
      simp
  | some e =>
    have ht : sigCatchHandler w
        = ⟨[Event.Ok "Brog invasion INTERRUPTed" [], Event.Close], Outcome.panicked e⟩ := by
      simp [sigCatchHandler, closeOrPanic, hc]
    rw [ht]
    refine ⟨by simp, ?_, fun h => by simp at h, ?_, ?_⟩
    rotate_right
    · intro isDevel brog hp hl
      obtain ⟨h1, h2⟩ := hserver isDevel brog hp hl
      refine ⟨h1, ?_⟩
      rw [List.count_append, h2]
      simp
    · intro pre post code h
      have hmem : Event.Exit code ∈ [Event.Ok "Brog invasion INTERRUPTed" [], Event.Close] := by
        simp only [] at h
        rw [h]; simp
      simp at hmem
    · intro err herr
      simp only [Option.some.injEq] at herr
      subst herr
      exact ⟨by simp, rfl⟩

/-- C4, in a world where `Close` returns nil: the handler logs, closes, exits. -/
theorem interrupt_closes_before_exit_witness :
    okWorld.Close = none
      ∧ (sigCatchHandler okWorld).trace.getLast? = some (Event.Exit 1)
      ∧ (sigCatchHandler okWorld).outcome = Outcome.exited 1
      ∧ (sigCatchHandler okWorld).outcome.exitStatus = some 1 :=
  ⟨rfl, (interrupt_closes_before_exit okWorld).2.2.1 rfl⟩

/-- C5 (as stated, refuted): `brog help version`: the first argument is
"help", `main` steps over it, prints the version and returns; the usage text
is not printed. -/
theorem help_then_version_prints_no_usage :
    (main okWorld ["brog", "help", "version"]).trace = [Event.Println "0.1"]
      ∧ Event.Println usage ∉ (main okWorld ["brog", "help", "version"]).trace := by
  refine ⟨rfl, ?_⟩
  have h : (main okWorld ["brog", "help", "version"]).trace = [Event.Println "0.1"] := rfl
  rw [h]
  simp [usage]

/-- C5 (amended): when the first argument is "help" and none of the later
arguments is `init`, `server`, `create`, `page` or `version`, `main` prints the
usage text to stdout as its last action and returns. -/
theorem help_prints_usage (w : World) (prog : String) (rest : List String)
    (hrest : ∀ a ∈ rest, a ∉ dispatching) :
    Event.Println usage ∈ (main w (prog :: Help :: rest)).trace
      ∧ (main w (prog :: Help :: rest)).trace.getLast? = some (Event.Println usage)
      ∧ (main w (prog :: Help :: rest)).outcome = Outcome.returned := by
  have hall : ∀ a ∈ Help :: rest, a ∉ dispatching := by
    intro a ha
    rcases List.mem_cons.1 ha with rfl | ha
    · decide
    · exact hrest a ha
  have hrun : main w (prog :: Help :: rest)
      = Run.after (skipped w (Help :: rest)) ⟨[Event.Println usage], Outcome.returned⟩ := by
    have := rangeCommands_skip w (Help :: rest) (Help :: rest) [] 0 hall
    rw [List.append_nil] at this
    simp only [main]
    rw [this]
    rfl
  rw [hrun]
  simp [Run.after]

/-- C5 (amended), at `brog help` and at `brog help me please`. -/
theorem help_prints_usage_witness :
    Event.Println usage ∈ (main noBrogWorld ["brog", "help"]).trace
      ∧ (main noBrogWorld ["brog", "help", "me", "please"]).trace.getLast?
          = some (Event.Println usage) :=
  ⟨(help_prints_usage noBrogWorld "brog" [] (by decide)).1,
   (help_prints_usage noBrogWorld "brog" ["me", "please"] (by decide)).2.1⟩

end BrogCmd

namespace Brogger

/-! ## Claims about the engine, on the model from the spec -/

theorem parseAll_error_of_malformed (rd : Reader) (files : List SourceFile)
    (h : ∃ f ∈ files, Malformed rd f) :
    ∃ f ∈ files, ∃ reason, rd.parse f.text = Except.error reason
      ∧ parseAll rd files = Except.error (BuildError.ContentParseError f.path reason) := by
  induction files with
  | nil =>
    obtain ⟨f, hf, -⟩ := h
    simp at hf
  | cons g gs ih =>
    cases hg : rd.parse g.text with
    | error reason =>
      refine ⟨g, List.mem_cons_self _ _, reason, hg, ?_⟩
      simp [parseAll, parseItem, hg]
    | ok res =>
      obtain ⟨f, hf, hbad⟩ := h
      have hfgs : f ∈ gs := by
        rcases List.mem_cons.1 hf with rfl | hfgs
        · obtain ⟨reason, hr⟩ := hbad
          rw [hg] at hr
          cases hr
        · exact hfgs
      obtain ⟨f2, hf2, reason, hparse, hall⟩ := ih ⟨f, hfgs, hbad⟩
      refine ⟨f2, List.mem_cons_of_mem _ hf2, reason, hparse, ?_⟩
      simp [parseAll, parseItem, hg, hall]

/-- C7 (on the model from the spec): when at least one of the files scanned
from postPath and pagePath has malformed front-matter, `build` returns an
error, the `ContentParseError` of such a file; the rebuild reports it and
leaves the engine with the snapshot it had, and every request is answered as
before the rebuild. -/
theorem failed_build_keeps_snapshot (rd : Reader) (render : Renderer) (fs : FileSystem)
    (config : Configuration) (eng : Engine)
    (h : ∃ f ∈ scan fs config, Malformed rd f) :
    (∃ f ∈ scan fs config, ∃ reason, rd.parse f.text = Except.error reason
        ∧ build rd fs config = Except.error (BuildError.ContentParseError f.path reason))
      ∧ (rebuild rd render fs config eng).live = eng.live
      ∧ (∀ path, serve (rebuild rd render fs config eng) path = serve eng path)
      ∧ (rebuild rd render fs config eng).reported.length = eng.reported.length + 1 := by
  obtain ⟨f, hf, reason, hparse, hall⟩ := parseAll_error_of_malformed rd (scan fs config) h
  have hb : build rd fs config = Except.error (BuildError.ContentParseError f.path reason) := by
    simp [build, hall]
  refine ⟨⟨f, hf, reason, hparse, hb⟩, ?_, ?_, ?_⟩
  · simp [rebuild, hb]
  · intro path
    simp [rebuild, hb, serve]
  · simp [rebuild, hb]

/-- C7, on a content set with one good post and one page without
front-matter, while a snapshot with the post `hello` is live. -/
theorem failed_build_keeps_snapshot_witness :
    (∃ f ∈ scan brokenFileSystem sampleConfiguration, Malformed sampleReader f)
      ∧ (rebuild sampleReader sampleRenderer brokenFileSystem sampleConfiguration
          sampleEngine).live = sampleEngine.live
      ∧ serve (rebuild sampleReader sampleRenderer brokenFileSystem sampleConfiguration
          sampleEngine) "/hello" = serve sampleEngine "/hello" :=
  have hbad : ∃ f ∈ scan brokenFileSystem sampleConfiguration, Malformed sampleReader f :=
    ⟨⟨"about", Kind.page, "no front-matter here"⟩, by decide, _, rfl⟩
  ⟨hbad,
   (failed_build_keeps_snapshot sampleReader sampleRenderer brokenFileSystem
      sampleConfiguration sampleEngine hbad).2.1,
   (failed_build_keeps_snapshot sampleReader sampleRenderer brokenFileSystem
      sampleConfiguration sampleEngine hbad).2.2.1 "/hello"⟩

end Brogger
